import Mathlib

/-!
Verification of the tractor/mower sales dashboard's data pipeline
(`src/app.py`): sheet normalization (`_clean_sheet`), dataset construction
(`load_data`), the sidebar filter block, and the KPI metrics
(total units, year-over-year, top region, product share).

Spreadsheet cells are modelled as a sum type (missing / text / number /
date); numbers are exact rationals.  Pandas operations are modelled
cell-wise; operations that raise in pandas (e.g. `df.iloc[1]` on a short
frame, `pd.to_datetime` / `pd.to_numeric` applied to a duplicated column
label) are modelled by returning `none`.
-/

namespace TractorMowerDashboard

/-- A calendar date, as carried by a pandas `Timestamp`. -/
structure Date where
  year : Int
  month : Nat
  day : Nat
deriving Repr, DecidableEq

/-- Days in a calendar month, with the Gregorian leap rule. -/
def daysInMonth (y : Int) (m : Nat) : Nat :=
  if m = 2 then (if y % 4 = 0 ∧ (y % 100 ≠ 0 ∨ y % 400 = 0) then 29 else 28)
  else if m = 4 ∨ m = 6 ∨ m = 9 ∨ m = 11 then 30 else 31

/-- A structurally valid calendar date. -/
def Date.isValid (d : Date) : Bool :=
  decide (1 ≤ d.month) && decide (d.month ≤ 12) &&
  decide (1 ≤ d.day) && decide (d.day ≤ daysInMonth d.year d.month)

/-- Years representable by a pandas `Timestamp` (the real bounds are
1677-09-21 .. 2262-04-11; we model the interior years).  `pd.to_datetime`
with `errors="coerce"` turns out-of-bounds dates into `NaT`. -/
def Date.inBounds (d : Date) : Bool :=
  decide (1678 ≤ d.year) && decide (d.year ≤ 2261)

/-- Lexicographic order on dates (year, then month, then day). -/
def dateLE (a b : Date) : Prop :=
  a.year < b.year ∨ (a.year = b.year ∧
    (a.month < b.month ∨ (a.month = b.month ∧ a.day ≤ b.day)))

instance (a b : Date) : Decidable (dateLE a b) := by
  unfold dateLE; infer_instance

/-- Order on nullable dates as used by `sort_values("Month")`:
`NaT` sorts last (`na_position="last"`). -/
def monthLE : Option Date → Option Date → Prop
  | _, none => True
  | none, some _ => False
  | some a, some b => dateLE a b

instance instDecMonthLE : (a b : Option Date) → Decidable (monthLE a b)
  | none, none => isTrue trivial
  | some _, none => isTrue trivial
  | none, some _ => isFalse id
  | some a, some b => inferInstanceAs (Decidable (dateLE a b))

theorem dateLE_total (a b : Date) : dateLE a b ∨ dateLE b a := by
  unfold dateLE; omega

theorem dateLE_trans {a b c : Date} (h1 : dateLE a b) (h2 : dateLE b c) :
    dateLE a c := by
  unfold dateLE at *; omega

theorem monthLE_total (a b : Option Date) : monthLE a b ∨ monthLE b a := by
  cases a <;> cases b <;> simp [monthLE]
  exact dateLE_total _ _

theorem monthLE_trans {a b c : Option Date}
    (h1 : monthLE a b) (h2 : monthLE b c) : monthLE a c := by
  cases a <;> cases b <;> cases c <;> simp_all [monthLE]
  exact dateLE_trans h1 h2

/-- Short month label produced by `strftime("%b")` (C locale). -/
def monthAbbrev : Nat → String
  | 1 => "Jan" | 2 => "Feb" | 3 => "Mar" | 4 => "Apr"
  | 5 => "May" | 6 => "Jun" | 7 => "Jul" | 8 => "Aug"
  | 9 => "Sep" | 10 => "Oct" | 11 => "Nov" | 12 => "Dec"
  | _ => ""

/-- One spreadsheet cell: missing (`NaN`), text, exact number, or date. -/
inductive Cell where
  | na : Cell
  | str (s : String) : Cell
  | num (q : ℚ) : Cell
  | date (d : Date) : Cell
deriving Repr, DecidableEq

/-- Value of a decimal digit character, if it is one. -/
def digitVal (c : Char) : Option Nat :=
  let n := c.toNat
  if 48 ≤ n ∧ n ≤ 57 then some (n - 48) else none

/-- Parse a nonempty all-digit character list as a natural number. -/
def digitsToNat : List Char → Option Nat
  | [] => none
  | cs => cs.foldl (fun acc c =>
      match acc, digitVal c with
      | some a, some d => some (a * 10 + d)
      | _, _ => none) (some 0)

/-- Split a character list on a separator character. -/
def splitOnChar (sep : Char) : List Char → List (List Char)
  | [] => [[]]
  | c :: rest =>
    let r := splitOnChar sep rest
    if c = sep then [] :: r
    else
      match r with
      | g :: gs => (c :: g) :: gs
      | [] => [[c]]

/-- Parse an ISO `YYYY-MM-DD` string as a date, checking calendar
validity and `Timestamp` bounds; anything else is unparsable.  This
models the subset of `pd.to_datetime`'s string formats that the
dataset uses; `errors="coerce"` maps failures to `NaT` (`none`). -/
def parseDate (s : String) : Option Date :=
  match splitOnChar '-' s.data with
  | [ys, ms, ds] =>
    match digitsToNat ys, digitsToNat ms, digitsToNat ds with
    | some y, some m, some d =>
      let dt : Date := ⟨(y : Int), m, d⟩
      if ys.length = 4 && dt.isValid && dt.inBounds then some dt else none
    | _, _, _ => none
  | _ => none

/-- Parse a decimal number string (optional leading minus, digits,
optional fractional part), as `pd.to_numeric` would. -/
def parseNumStr (s : String) : Option ℚ :=
  let core : List Char → Option ℚ := fun cs =>
    match splitOnChar '.' cs with
    | [a] => (digitsToNat a).map (fun n => (n : ℚ))
    | [a, b] =>
      match digitsToNat a, digitsToNat b with
      | some n, some f => some ((n : ℚ) + (f : ℚ) / ((10 : ℚ) ^ b.length))
      | _, _ => none
    | _ => none
  match s.data with
  | '-' :: rest => (core rest).map (fun q => -q)
  | cs => core cs

/-- Model of `pd.to_datetime(cell, errors="coerce")` on one cell:
dates pass through (subject to `Timestamp` bounds), strings are parsed,
everything else coerces to `NaT`. -/
def toDatetime : Cell → Option Date
  | Cell.date d => if d.isValid && d.inBounds then some d else none
  | Cell.str s => parseDate s
  | _ => none

/-- Model of `pd.to_numeric(cell, errors="coerce")` on one cell. -/
def toNumeric : Cell → Option ℚ
  | Cell.num q => some q
  | Cell.str s => parseNumStr s
  | _ => none

/-- The `REGION_ALIASES` table: map a column label through the alias
dictionary (`df.rename(columns=REGION_ALIASES)`); labels that are not
keys of the dictionary are unchanged. -/
def regionAlias (s : String) : String :=
  if s = "SA" then "South America"
  else if s = "Eur" then "Europe"
  else if s = "Europe" then "Europe"
  else if s = "Pacific" then "Pacific"
  else if s = "China" then "China"
  else if s = "World" then "World"
  else s

/-- Alias renaming on a column label cell; only string labels can match
the (string) alias keys. -/
def aliasCell : Cell → Cell
  | Cell.str s => Cell.str (regionAlias s)
  | c => c

/-- The canonical region set used for `keep_cols`. -/
def canonicalRegions : List String :=
  ["South America", "Europe", "Pacific", "China", "World"]

/-- A raw sheet as handed to `_clean_sheet`: a grid of cells.  Row `i`
is `df_raw.iloc[i]`; a row's cell at a column index beyond its length
reads as missing. -/
structure RawSheet where
  ncols : Nat
  rows : List (List Cell)
deriving Repr

/-- The column indices kept by `df_raw.dropna(axis=1, how="all")`:
columns with at least one non-missing cell. -/
def keptCols (sheet : RawSheet) : List Nat :=
  (List.range sheet.ncols).filter
    (fun j => sheet.rows.any (fun r => r.getD j Cell.na ≠ Cell.na))

/-- Kept columns paired with their header label, read from row index 1
(`df.iloc[1]`, the authoritative header row). -/
def headerCells (sheet : RawSheet) : List (Nat × Cell) :=
  (keptCols sheet).map (fun j => (j, (sheet.rows.getD 1 []).getD j Cell.na))

/-- Column labels after the `"Month"` fallback: if no column is named
`Month`, the first column is renamed to `Month`
(`df.rename(columns={df.columns[0]: "Month"})`); with no columns at all,
`df.columns[0]` raises `IndexError` (modelled as `none`). -/
def namedCols (sheet : RawSheet) : Option (List (Nat × Cell)) :=
  let n := headerCells sheet
  if n.any (fun p => p.2 = Cell.str "Month") then some n
  else
    match n with
    | [] => none
    | (j, _) :: rest => some ((j, Cell.str "Month") :: rest)

/-- Indices of columns labelled `Month` (the label `pd.to_datetime` is
applied to). -/
def monthCols (named : List (Nat × Cell)) : List Nat :=
  (named.filter (fun p => p.2 = Cell.str "Month")).map (fun p => p.1)

/-- The kept region columns: columns whose alias-renamed label is one of
the canonical region names (`keep_cols` minus `Month`), in column order,
paired with that canonical name. -/
def regionCols (named : List (Nat × Cell)) : List (Nat × String) :=
  named.filterMap (fun p =>
    match aliasCell p.2 with
    | Cell.str s => if canonicalRegions.contains s then some (p.1, s) else none
    | _ => none)

/-- The data rows: everything below the header row
(`df.iloc[header_row_idx + 1:]`). -/
def dataRows (sheet : RawSheet) : List (List Cell) :=
  sheet.rows.drop 2

/-- One row of the long-format frame produced by `_clean_sheet`:
`Month` (nullable, `NaT` when the raw cell was unparsable), `Region`,
`Product`, `Units` (nullable before the final `dropna`), and the
derived `Year` and `MonthName` (null when `Month` is `NaT`). -/
structure CleanRecord where
  month : Option Date
  region : String
  product : String
  units : Option ℚ
  year : Option Int
  monthName : Option String
deriving Repr, DecidableEq

/-- The `df.melt(id_vars="Month", ...)` step: for each kept region
column (in order) and each data row (in order), one long-format record
with the coerced month, the region name, the product tag, the coerced
numeric units, and the derived year and month name. -/
def meltRecords (sheet : RawSheet) (product : String) (jm : Nat)
    (regions : List (Nat × String)) : List CleanRecord :=
  regions.flatMap (fun rc =>
    (dataRows sheet).map (fun row =>
      let m := toDatetime (row.getD jm Cell.na)
      { month := m
        region := rc.2
        product := product
        units := toNumeric (row.getD rc.1 Cell.na)
        year := m.map Date.year
        monthName := m.map (fun d => monthAbbrev d.month) }))

/-- Model of `_clean_sheet(df_raw, product)`.  Returns `none` where the
pandas code raises: fewer than two rows (`df.iloc[1]`), no kept columns
at all (`df.columns[0]`), a duplicated `Month` label (`pd.to_datetime`
on a two-column selection), or a duplicated region label after alias
renaming (`pd.to_numeric` on a two-column selection).  Otherwise it
returns the melted records with null-units rows dropped
(`long_df.dropna(subset=["Units"])`). -/
def cleanSheet (sheet : RawSheet) (product : String) :
    Option (List CleanRecord) :=
  if sheet.rows.length < 2 then none
  else
    match namedCols sheet with
    | none => none
    | some named =>
      match monthCols named with
      | [jm] =>
        if ((regionCols named).map (fun rc => rc.2)).Nodup then
          some ((meltRecords sheet product jm (regionCols named)).filter
            (fun r => r.units.isSome))
        else none
      | _ => none

/-- Order on records used by `.sort_values("Month")`. -/
def recMonthLE (a b : CleanRecord) : Prop :=
  monthLE a.month b.month

instance : DecidableRel recMonthLE :=
  fun a b => inferInstanceAs (Decidable (monthLE a.month b.month))

instance : IsTotal CleanRecord recMonthLE :=
  ⟨fun a b => monthLE_total a.month b.month⟩

instance : IsTrans CleanRecord recMonthLE :=
  ⟨fun _ _ _ h1 h2 => monthLE_trans h1 h2⟩

/-- Model of `load_data` after the two sheets have been read: clean each
sheet with its product tag, concatenate (mower first), and sort by month
ascending.  `none` if cleaning either sheet raises. -/
def loadData (mowerRaw tractorRaw : RawSheet) : Option (List CleanRecord) :=
  match cleanSheet mowerRaw "Mower", cleanSheet tractorRaw "Tractor" with
  | some mower, some tractor =>
      some (List.insertionSort recMonthLE (mower ++ tractor))
  | _, _ => none

/-- The sidebar filter state: selected products, regions and years
(each a possibly-empty multiselect), and the `Include 'World'`
checkbox. -/
structure FilterCriteria where
  products : List String
  regions : List String
  years : List Int
  includeWorld : Bool

/-- Year membership test `df["Year"].isin(years)` on one record: a null
year (from a `NaT` month) is never in the selection. -/
def yearIn (years : List Int) (r : CleanRecord) : Bool :=
  match r.year with
  | some y => years.contains y
  | none => false

/-- Model of the module-level filter block: drop `World` rows unless the
checkbox is set, then restrict by product, region and year, each only
when the corresponding selection is non-empty. -/
def applyFilters (data : List CleanRecord) (c : FilterCriteria) :
    List CleanRecord :=
  let df1 := if c.includeWorld then data
             else data.filter (fun r => !(r.region == "World"))
  let df2 := if c.products.isEmpty then df1
             else df1.filter (fun r => c.products.contains r.product)
  let df3 := if c.regions.isEmpty then df2
             else df2.filter (fun r => c.regions.contains r.region)
  if c.years.isEmpty then df3 else df3.filter (yearIn c.years)

/-- The conjunctive filter predicate the spec describes: region is not
`World` unless `include_world`; product, region and year each lie in the
corresponding criteria set whenever that set is non-empty. -/
def passesFilters (c : FilterCriteria) (r : CleanRecord) : Bool :=
  (c.includeWorld || !(r.region == "World")) &&
  ((c.products.isEmpty || c.products.contains r.product) &&
   ((c.regions.isEmpty || c.regions.contains r.region) &&
    (c.years.isEmpty || yearIn c.years r)))

/-- Sum of the `Units` column, `df["Units"].sum()`: pandas sums with
`skipna=True`, so null units contribute nothing. -/
def sumUnits (rows : List CleanRecord) : ℚ :=
  rows.foldr (fun r acc => r.units.getD 0 + acc) 0

/-- Python's `int()` on a float/rational: truncation toward zero. -/
def pyInt (q : ℚ) : Int :=
  q.num.tdiv q.den

/-- The `Total Units (Filtered)` KPI, `int(df["Units"].sum())`. -/
def totalUnits (rows : List CleanRecord) : Int :=
  pyInt (sumUnits rows)

/-- Code-point lexicographic order on character lists (Python/pandas
string comparison). -/
def charsLE : List Char → List Char → Prop
  | [], _ => True
  | _ :: _, [] => False
  | a :: as, b :: bs =>
      a.toNat < b.toNat ∨ (a.toNat = b.toNat ∧ charsLE as bs)

instance instDecCharsLE : (a b : List Char) → Decidable (charsLE a b)
  | [], _ => isTrue trivial
  | _ :: _, [] => isFalse id
  | _ :: as, _ :: bs =>
      have := instDecCharsLE as bs
      inferInstanceAs (Decidable (_ ∨ _))

theorem charsLE_total : ∀ a b : List Char, charsLE a b ∨ charsLE b a
  | [], _ => Or.inl trivial
  | _ :: _, [] => Or.inr trivial
  | a :: as, b :: bs => by
      rcases Nat.lt_trichotomy a.toNat b.toNat with h | h | h
      · exact Or.inl (Or.inl h)
      · rcases charsLE_total as bs with ih | ih
        · exact Or.inl (Or.inr ⟨h, ih⟩)
        · exact Or.inr (Or.inr ⟨h.symm, ih⟩)
      · exact Or.inr (Or.inl h)

theorem charsLE_trans :
    ∀ {a b c : List Char}, charsLE a b → charsLE b c → charsLE a c
  | [], _, _, _, _ => trivial
  | _ :: _, [], _, h, _ => absurd h id
  | _ :: _, _ :: _, [], _, h => absurd h id
  | a :: as, b :: bs, c :: cs, h1, h2 => by
      rcases h1 with h1 | ⟨h1e, h1r⟩ <;> rcases h2 with h2 | ⟨h2e, h2r⟩
      · exact Or.inl (h1.trans h2)
      · exact Or.inl (h2e ▸ h1)
      · exact Or.inl (h1e ▸ h2)
      · exact Or.inr ⟨h1e.trans h2e, charsLE_trans h1r h2r⟩

/-- String order used when `groupby` sorts its group keys. -/
def strLE (a b : String) : Prop :=
  charsLE a.data b.data

instance : DecidableRel strLE :=
  fun a b => inferInstanceAs (Decidable (charsLE a.data b.data))

instance : IsTotal String strLE :=
  ⟨fun a b => charsLE_total a.data b.data⟩

instance : IsTrans String strLE :=
  ⟨fun _ _ _ h1 h2 => charsLE_trans h1 h2⟩

/-- The distinct region names of a collection, in the ascending key
order `groupby("Region")` (with `sort=True`) produces. -/
def regionKeys (rows : List CleanRecord) : List String :=
  List.insertionSort strLE ((rows.map (fun r => r.region)).dedup)

/-- `df.groupby("Region")["Units"].sum()`: each distinct region paired
with its summed units, keys ascending. -/
def regionTotals (rows : List CleanRecord) : List (String × ℚ) :=
  (regionKeys rows).map
    (fun k => (k, sumUnits (rows.filter (fun r => r.region == k))))

/-- Descending order on per-region totals, as in
`.sort_values(ascending=False)`. -/
def byUnitsDesc (a b : String × ℚ) : Prop :=
  b.2 ≤ a.2

instance : DecidableRel byUnitsDesc :=
  fun a b => inferInstanceAs (Decidable (b.2 ≤ a.2))

instance : IsTotal (String × ℚ) byUnitsDesc :=
  ⟨fun a b => le_total b.2 a.2⟩

instance : IsTrans (String × ℚ) byUnitsDesc :=
  ⟨fun _ _ _ h1 h2 => le_trans h2 h1⟩

/-- The `Top Region` KPI: group by region, sum units, sort totals
descending (stable), take the first entry
(`df.groupby("Region")["Units"].sum().sort_values(ascending=False).index[0]`,
paired with the maximal total).  `none` on an empty collection (the
code guards with `if not df.empty`). -/
def bestRegion (rows : List CleanRecord) : Option (String × ℚ) :=
  (List.insertionSort byUnitsDesc (regionTotals rows)).head?

/-- Python `>` on nullable years: any comparison with `NaN` is false. -/
def optYearGT : Option Int → Option Int → Bool
  | some a, some b => decide (b < a)
  | _, _ => false

/-- One step of Python's `max(...)`: keep the incumbent unless the next
item compares strictly greater. -/
def pyMaxStep (acc x : Option Int) : Option Int :=
  if optYearGT x acc then x else acc

/-- Python's `max(...)` over the `Year` column: left fold of the step
above (so a leading `NaN` is never replaced).  `none` for an empty
collection (`... if not df.empty else None`). -/
def pyMaxYear (ys : List (Option Int)) : Option (Option Int) :=
  match ys with
  | [] => none
  | y :: rest => some (rest.foldl pyMaxStep y)

/-- Units total of one year, `int(df[df["Year"] == y]["Units"].sum())`. -/
def yearUnits (rows : List CleanRecord) (y : Int) : Int :=
  pyInt (sumUnits (rows.filter (fun r => r.year == some y)))

/-- Model of the year-over-year KPI block: `last_year = max(df["Year"])`
(Python truthiness: `None`, and the year `0`, are falsy; `NaN` is
truthy), `prev_year = last_year - 1`, computed only when `last_year` is
truthy and `prev_year` occurs in the `Year` column. -/
def yoy (rows : List CleanRecord) : Option (Int × Int × Int) :=
  match pyMaxYear (rows.map (fun r => r.year)) with
  | none => none
  | some lastY =>
    let truthy : Bool := match lastY with
      | none => true
      | some y => y != 0
    let prevPresent : Bool := match lastY with
      | none => false
      | some y => (rows.map (fun r => r.year)).contains (some (y - 1))
    if truthy && prevPresent then
      match lastY with
      | some y =>
          some (yearUnits rows y, yearUnits rows (y - 1),
            yearUnits rows y - yearUnits rows (y - 1))
      | none => none
    else none

/-- The latest year actually present in a collection (the spec's
`latest_year`): maximum of the non-null years, `none` if there are
none. -/
def specLatest (rows : List CleanRecord) : Option Int :=
  match rows.filterMap (fun r => r.year) with
  | [] => none
  | y :: ys => some (ys.foldl max y)

/-- Summed units of one product's group,
`mix.get(p, 0)` for `mix = df.groupby("Product")["Units"].sum()`
(a missing group reads as 0, which equals the sum over no rows). -/
def productUnits (rows : List CleanRecord) (p : String) : ℚ :=
  sumUnits (rows.filter (fun r => r.product == p))

/-- The `Tractor Share (%)` KPI:
`(mix.get("Tractor", 0) / mix.sum() * 100) if mix.sum() else 0`. -/
def tractorShare (rows : List CleanRecord) : ℚ :=
  if sumUnits rows ≠ 0 then productUnits rows "Tractor" / sumUnits rows * 100
  else 0

/-- The spec's `product_share` mapping, the evident per-product reading
of the `tractor_share` formula: a product's summed units over total
units times 100, and 0 when the total is 0. -/
def productShare (rows : List CleanRecord) (p : String) : ℚ :=
  if sumUnits rows ≠ 0 then productUnits rows p / sumUnits rows * 100
  else 0

/-! ### Concrete sheets and collections used in counterexamples and witnesses -/

/-- A sheet whose single data row has an unparsable month cell next to a
numeric units cell. -/
def badMonthSheet : RawSheet :=
  ⟨2, [[Cell.na, Cell.na],
       [Cell.str "Month", Cell.str "SA"],
       [Cell.str "garbage", Cell.num 5]]⟩

/-- A sheet with a single row: pandas raises `IndexError` at
`df.iloc[1]`. -/
def oneRowSheet : RawSheet := ⟨1, [[Cell.str "Month"]]⟩

/-- A sheet with exactly the two header rows and no data rows. -/
def headersOnlySheet : RawSheet :=
  ⟨2, [[Cell.na, Cell.na], [Cell.str "Month", Cell.str "SA"]]⟩

/-- The spec's wide-sheet scenario: header row 1 is
`["Month","SA","Eur","World"]`, one data row `["2020-01-01", 10, 20, 30]`. -/
def wideSheet : RawSheet :=
  ⟨4, [[Cell.na, Cell.na, Cell.na, Cell.na],
       [Cell.str "Month", Cell.str "SA", Cell.str "Eur", Cell.str "World"],
       [Cell.str "2020-01-01", Cell.num 10, Cell.num 20, Cell.num 30]]⟩

/-- A sheet whose single data row carries a negative units number. -/
def negUnitsSheet : RawSheet :=
  ⟨2, [[Cell.na, Cell.na],
       [Cell.str "Month", Cell.str "SA"],
       [Cell.str "2020-01-01", Cell.num (-5)]]⟩

/-- The record produced from `badMonthSheet`: null month, units 5. -/
def badMonthRecs : List CleanRecord :=
  [{ month := none, region := "South America", product := "Mower",
     units := some 5, year := none, monthName := none }]

/-- The record produced from `negUnitsSheet`: negative units. -/
def negUnitsRecs : List CleanRecord :=
  [{ month := some ⟨2020, 1, 1⟩, region := "South America",
     product := "Tractor", units := some (-5), year := some 2020,
     monthName := some "Jan" }]

/-- A mower sheet for the C3 witness (data rows deliberately out of
month order). -/
def mowerSheetW : RawSheet :=
  ⟨2, [[Cell.na, Cell.na],
       [Cell.str "Month", Cell.str "Europe"],
       [Cell.str "2020-02-01", Cell.num 7],
       [Cell.str "2020-01-01", Cell.num 3]]⟩

/-- A tractor sheet for the C3 witness. -/
def tractorSheetW : RawSheet :=
  ⟨2, [[Cell.na, Cell.na],
       [Cell.str "Month", Cell.str "China"],
       [Cell.str "2019-12-01", Cell.num 4]]⟩

/-- The unified dataset built from the two witness sheets. -/
def unifiedW : List CleanRecord :=
  [{ month := some ⟨2019, 12, 1⟩, region := "China", product := "Tractor",
     units := some 4, year := some 2019, monthName := some "Dec" },
   { month := some ⟨2020, 1, 1⟩, region := "Europe", product := "Mower",
     units := some 3, year := some 2020, monthName := some "Jan" },
   { month := some ⟨2020, 2, 1⟩, region := "Europe", product := "Mower",
     units := some 7, year := some 2020, monthName := some "Feb" }]

/-- Two regions tied at 100 units each, for the C6 witness. -/
def tieRows : List CleanRecord :=
  [{ month := some ⟨2020, 1, 1⟩, region := "China", product := "Tractor",
     units := some 100, year := some 2020, monthName := some "Jan" },
   { month := some ⟨2020, 1, 1⟩, region := "Europe", product := "Mower",
     units := some 100, year := some 2020, monthName := some "Jan" }]

/-- Records spanning the years 2019 and 2020, for the C7 witness. -/
def yoyRowsW : List CleanRecord :=
  [{ month := some ⟨2019, 3, 1⟩, region := "Europe", product := "Mower",
     units := some 4, year := some 2019, monthName := some "Mar" },
   { month := some ⟨2020, 3, 1⟩, region := "Europe", product := "Mower",
     units := some 9, year := some 2020, monthName := some "Mar" }]

/-- One tractor record and one mower record, for the C8 witness. -/
def shareRowsW : List CleanRecord :=
  [{ month := some ⟨2020, 1, 1⟩, region := "China", product := "Tractor",
     units := some 30, year := some 2020, monthName := some "Jan" },
   { month := some ⟨2020, 1, 1⟩, region := "China", product := "Mower",
     units := some 70, year := some 2020, monthName := some "Jan" }]

/-- A single record with a negative fractional units sum, for the C10
witness. -/
def fracRowsW : List CleanRecord :=
  [{ month := some ⟨2020, 1, 1⟩, region := "Europe", product := "Mower",
     units := some (-7 / 2), year := some 2020, monthName := some "Jan" }]

/-! ### Structure lemmas about `cleanSheet` -/

/-- Successful normalization is exactly: resolve the header labels,
find a unique `Month` column, melt, and drop null-units rows. -/
theorem cleanSheet_eq_some {sheet : RawSheet} {p : String}
    {recs : List CleanRecord} (h : cleanSheet sheet p = some recs) :
    ∃ named jm, namedCols sheet = some named ∧ monthCols named = [jm] ∧
      recs = (meltRecords sheet p jm (regionCols named)).filter
        (fun r => r.units.isSome) := by
  unfold cleanSheet at h
  split at h
  · exact absurd h (by simp)
  · split at h
    · exact absurd h (by simp)
    · next named hn =>
      split at h
      · next jm hm =>
        split at h
        · exact ⟨named, jm, hn, hm, (Option.some.inj h).symm⟩
        · exact absurd h (by simp)
      · exact absurd h (by simp)

/-- Every melted record carries a kept region column's name and the
given product tag. -/
theorem meltRecords_mem {sheet : RawSheet} {p : String} {jm : Nat}
    {regs : List (Nat × String)} {r : CleanRecord}
    (hr : r ∈ meltRecords sheet p jm regs) :
    ∃ rc ∈ regs, r.region = rc.2 ∧ r.product = p := by
  unfold meltRecords at hr
  rw [List.mem_flatMap] at hr
  obtain ⟨rc, hrc, hmem⟩ := hr
  rw [List.mem_map] at hmem
  obtain ⟨row, _, heq⟩ := hmem
  exact ⟨rc, hrc, by rw [← heq], by rw [← heq]⟩

/-- Kept region columns are named from the canonical region set. -/
theorem regionCols_mem_canonical {named : List (Nat × Cell)}
    {rc : Nat × String} (h : rc ∈ regionCols named) :
    rc.2 ∈ canonicalRegions := by
  unfold regionCols at h
  rw [List.mem_filterMap] at h
  obtain ⟨pc, _, heq⟩ := h
  cases ha : aliasCell pc.2 with
  | str s =>
    rw [ha] at heq
    simp only at heq
    split at heq
    · next hcont =>
      cases heq
      simpa using hcont
    · exact absurd heq (by simp)
  | na => rw [ha] at heq; exact absurd heq (by simp)
  | num q => rw [ha] at heq; exact absurd heq (by simp)
  | date d => rw [ha] at heq; exact absurd heq (by simp)

/-! ### C1 -/

/-- C1, counterexample: normalizing `badMonthSheet` produces a record
whose month is null (`NaT`) while its units are non-null, so a record
with a null month IS carried downstream — only null-units rows are
dropped. -/
theorem c1_null_month_carried :
    cleanSheet badMonthSheet "Mower" = some badMonthRecs ∧
      (badMonthRecs.map (fun r => r.month)) = [none] := by
  constructor <;> decide

/-- C1, amended: every record produced by normalization has a non-null
units value (null-units rows are dropped by
`long_df.dropna(subset=["Units"])`); months, by contrast, may be null. -/
theorem c1_units_never_null (sheet : RawSheet) (p : String)
    (recs : List CleanRecord) (h : cleanSheet sheet p = some recs) :
    ∀ r ∈ recs, r.units ≠ none := by
  obtain ⟨named, jm, _, _, hrecs⟩ := cleanSheet_eq_some h
  subst hrecs
  intro r hr
  have hs := (List.mem_filter.mp hr).2
  simpa [Option.isSome_iff_ne_none] using hs

/-- C1, witness: the amended theorem applied to `badMonthSheet`. -/
theorem c1_units_never_null_witness :
    cleanSheet badMonthSheet "Mower" = some badMonthRecs ∧
      ∀ r ∈ badMonthRecs, r.units ≠ none :=
  ⟨by decide, c1_units_never_null badMonthSheet "Mower" badMonthRecs (by decide)⟩

/-! ### C2 -/

/-- C2, counterexample: a sheet with a single row (fewer than 3 rows)
does not yield an empty record set — `df.iloc[1]` raises `IndexError`,
modelled as `none` rather than `some []`. -/
theorem c2_short_sheet_raises :
    cleanSheet oneRowSheet "Mower" = none := by decide

/-- C2, amended: when normalization does not raise, a sheet with exactly
two rows (the two header rows, no data rows), or one whose kept columns
contain no canonical-region column, yields the empty record set; but a
sheet with fewer than two rows, or with no non-empty column at all,
raises (`IndexError`) instead of degrading gracefully. -/
theorem c2_graceful_empty (sheet : RawSheet) (p : String)
    (recs : List CleanRecord) (h : cleanSheet sheet p = some recs)
    (hshape : sheet.rows.length = 2 ∨
      ∀ named, namedCols sheet = some named → regionCols named = []) :
    recs = [] := by
  obtain ⟨named, jm, hn, _, hrecs⟩ := cleanSheet_eq_some h
  subst hrecs
  rcases hshape with h2 | hreg
  · have hdrop : dataRows sheet = [] := by
      unfold dataRows
      rw [List.drop_eq_nil_iff]
      omega
    simp [meltRecords, hdrop]
  · simp [meltRecords, hreg named hn]

/-- C2, witness: the amended theorem applied to `headersOnlySheet`. -/
theorem c2_graceful_empty_witness :
    cleanSheet headersOnlySheet "Mower" = some [] ∧
      headersOnlySheet.rows.length = 2 ∧ ([] : List CleanRecord) = [] :=
  ⟨by decide, by decide,
    c2_graceful_empty headersOnlySheet "Mower" [] (by decide)
      (Or.inl (by decide))⟩

/-! ### C4 -/

/-- C4: on the spec's wide-sheet scenario, normalization with any
product label yields exactly three records for month 2020-01 with that
product: South America with units 10, Europe with units 20, and World
with units 30 (in that order). -/
theorem c4_wide_sheet_scenario (p : String) :
    cleanSheet wideSheet p = some [
      { month := some ⟨2020, 1, 1⟩, region := "South America", product := p,
        units := some 10, year := some 2020, monthName := some "Jan" },
      { month := some ⟨2020, 1, 1⟩, region := "Europe", product := p,
        units := some 20, year := some 2020, monthName := some "Jan" },
      { month := some ⟨2020, 1, 1⟩, region := "World", product := p,
        units := some 30, year := some 2020, monthName := some "Jan" }] := rfl

/-! ### C9 -/

/-- C9, counterexample: normalizing `negUnitsSheet` produces a record
with units `-5 < 0` — negative numeric units pass `pd.to_numeric`
unchanged and are never filtered, so records with units below zero can
appear in the output. -/
theorem c9_negative_units_kept :
    cleanSheet negUnitsSheet "Tractor" = some negUnitsRecs ∧
      (negUnitsRecs.map (fun r => r.units)) = [some (-5)] ∧ ((-5 : ℚ) < 0) := by
  refine ⟨by decide, by decide, by decide⟩

/-- C9, amended: every record produced by normalization carries a
numeric units value — rows whose units cell is non-numeric or missing
are dropped — and the number of surviving records is exactly the number
of numerically-coercible cells across the kept region columns of the
data rows; but the units value may be negative. -/
theorem c9_units_numeric (sheet : RawSheet) (p : String)
    (recs : List CleanRecord) (h : cleanSheet sheet p = some recs) :
    (∀ r ∈ recs, ∃ q : ℚ, r.units = some q) ∧
    ∀ named, namedCols sheet = some named →
      recs.length = ((regionCols named).map (fun rc =>
        (dataRows sheet).countP
          (fun row => (toNumeric (row.getD rc.1 Cell.na)).isSome))).sum := by
  obtain ⟨named, jm, hn, _, hrecs⟩ := cleanSheet_eq_some h
  subst hrecs
  constructor
  · intro r hr
    have hs := (List.mem_filter.mp hr).2
    exact Option.isSome_iff_exists.mp hs
  · intro named2 hn2
    rw [hn] at hn2
    cases Option.some.inj hn2
    unfold meltRecords
    induction regionCols named with
    | nil => rfl
    | cons rc rest ih =>
      simp only [List.flatMap_cons, List.filter_append, List.length_append,
        List.map_cons, List.sum_cons, ih]
      congr 1
      rw [List.filter_map, List.length_map, ← List.countP_eq_length_filter]
      rfl

/-- C9, witness: the amended theorem applied to `negUnitsSheet`. -/
theorem c9_units_numeric_witness :
    cleanSheet negUnitsSheet "Tractor" = some negUnitsRecs ∧
    ((∀ r ∈ negUnitsRecs, ∃ q : ℚ, r.units = some q) ∧
      ∀ named, namedCols negUnitsSheet = some named →
        negUnitsRecs.length = ((regionCols named).map (fun rc =>
          (dataRows negUnitsSheet).countP
            (fun row => (toNumeric (row.getD rc.1 Cell.na)).isSome))).sum) :=
  ⟨by decide, c9_units_numeric negUnitsSheet "Tractor" negUnitsRecs (by decide)⟩

/-! ### C5 -/

/-- A skipped-when-flag-set filter equals one guarded filter. -/
theorem skip_filter_eq (l : List CleanRecord) (b : Bool)
    (pr : CleanRecord → Bool) :
    (if b then l else l.filter pr) = l.filter (fun r => b || pr r) := by
  cases b
  · simp
  · simp

/-- Bool reassociation used to line the four filters up with the
conjunctive predicate. -/
theorem and_shuffle (a b c d : Bool) :
    (((d && c) && b) && a) = (a && (b && (c && d))) := by
  cases a <;> cases b <;> cases c <;> cases d <;> rfl

/-- C5: the module-level filter block computes exactly the records
satisfying the conjunction of the four predicates; each of the product,
region and year restrictions is a no-op when its selection is empty. -/
theorem c5_filter_conjunction (data : List CleanRecord)
    (c : FilterCriteria) :
    applyFilters data c = data.filter (passesFilters c) := by
  unfold applyFilters
  rw [skip_filter_eq, skip_filter_eq, skip_filter_eq, skip_filter_eq,
    List.filter_filter, List.filter_filter, List.filter_filter]
  exact List.filter_congr (fun r _ => and_shuffle _ _ _ _)

/-! ### C3 -/

/-- Records of a successful normalization have canonical regions and
carry the given product tag. -/
theorem cleanSheet_region_product {sheet : RawSheet} {p : String}
    {recs : List CleanRecord} (h : cleanSheet sheet p = some recs) :
    ∀ r ∈ recs, r.region ∈ canonicalRegions ∧ r.product = p := by
  obtain ⟨named, jm, _, _, hrecs⟩ := cleanSheet_eq_some h
  subst hrecs
  intro r hr
  obtain ⟨rc, hrc, hreg, hprod⟩ := meltRecords_mem (List.mem_filter.mp hr).1
  exact ⟨hreg ▸ regionCols_mem_canonical hrc, hprod⟩

/-- C3: for every pair of sheets on which the load succeeds, the unified
dataset is sorted by month ascending (nulls last, as
`sort_values("Month")` leaves them), every record's region is in the
canonical region set, and every record's product is `Tractor` or
`Mower`. -/
theorem c3_build_sorted_and_canonical (m t : RawSheet)
    (ds : List CleanRecord) (h : loadData m t = some ds) :
    List.Sorted recMonthLE ds ∧
      ∀ r ∈ ds, r.region ∈ canonicalRegions ∧
        (r.product = "Tractor" ∨ r.product = "Mower") := by
  unfold loadData at h
  cases hm : cleanSheet m "Mower" with
  | none => rw [hm] at h; exact absurd h (by simp)
  | some a =>
    cases ht : cleanSheet t "Tractor" with
    | none => rw [hm, ht] at h; exact absurd h (by simp)
    | some b =>
      rw [hm, ht] at h
      cases Option.some.inj h
      refine ⟨List.sorted_insertionSort recMonthLE (a ++ b), ?_⟩
      intro r hr
      have hr2 : r ∈ a ++ b :=
        (List.perm_insertionSort recMonthLE (a ++ b)).mem_iff.mp hr
      rcases List.mem_append.mp hr2 with hA | hB
      · obtain ⟨hreg, hprod⟩ := cleanSheet_region_product hm r hA
        exact ⟨hreg, Or.inr hprod⟩
      · obtain ⟨hreg, hprod⟩ := cleanSheet_region_product ht r hB
        exact ⟨hreg, Or.inl hprod⟩

/-- C3, witness: the theorem applied to the two concrete sheets. -/
theorem c3_build_sorted_and_canonical_witness :
    loadData mowerSheetW tractorSheetW = some unifiedW ∧
      (List.Sorted recMonthLE unifiedW ∧
        ∀ r ∈ unifiedW, r.region ∈ canonicalRegions ∧
          (r.product = "Tractor" ∨ r.product = "Mower")) :=
  ⟨by decide,
    c3_build_sorted_and_canonical mowerSheetW tractorSheetW unifiedW
      (by decide)⟩

/-! ### C6 -/

/-- The per-region totals list has one entry per distinct region. -/
theorem regionTotals_length (rows : List CleanRecord) :
    (regionTotals rows).length =
      (rows.map (fun r => r.region)).dedup.length := by
  unfold regionTotals regionKeys
  rw [List.length_map, (List.perm_insertionSort strLE _).length_eq]

/-- C6: on every non-empty collection, `best_region` returns a region
together with its summed units, and that sum is maximal among all
per-region totals.  The function is pure, so repeated evaluation on the
same input is literally the same value; on ties the stable descending
sort keeps the ascending `groupby` key order, so index 0 is the
alphabetically first of the tied regions. -/
theorem c6_top_region_max (rows : List CleanRecord) (h : rows ≠ []) :
    ∃ reg total, bestRegion rows = some (reg, total) ∧
      total = sumUnits (rows.filter (fun r => r.region == reg)) ∧
      ∀ kt ∈ regionTotals rows, kt.2 ≤ total := by
  have hne : regionTotals rows ≠ [] := by
    intro hcon
    have hlen := congrArg List.length hcon
    rw [regionTotals_length] at hlen
    simp only [List.length_nil] at hlen
    have hd := List.eq_nil_of_length_eq_zero hlen
    rw [List.dedup_eq_nil, List.map_eq_nil_iff] at hd
    exact h hd
  have hperm := List.perm_insertionSort byUnitsDesc (regionTotals rows)
  have hsorted := List.sorted_insertionSort byUnitsDesc (regionTotals rows)
  cases hS : List.insertionSort byUnitsDesc (regionTotals rows) with
  | nil =>
    rw [hS] at hperm
    exact absurd hperm.symm.eq_nil hne
  | cons top tl =>
    rw [hS] at hperm hsorted
    have hbest : bestRegion rows = some top := by
      unfold bestRegion
      rw [hS]
      rfl
    have htopmem : top ∈ regionTotals rows :=
      hperm.mem_iff.mp (List.mem_cons_self top tl)
    obtain ⟨k, _, hkeq⟩ := List.mem_map.mp htopmem
    cases hkeq
    refine ⟨k, _, hbest, rfl, ?_⟩
    intro kt hkt
    rcases List.mem_cons.mp (hperm.mem_iff.mpr hkt) with heq | htl
    · exact heq ▸ le_refl _
    · exact (List.sorted_cons.mp hsorted).1 kt htl

/-- C6, witness: the theorem applied to a tied collection. -/
theorem c6_top_region_max_witness :
    tieRows ≠ [] ∧
      ∃ reg total, bestRegion tieRows = some (reg, total) ∧
        total = sumUnits (tieRows.filter (fun r => r.region == reg)) ∧
        ∀ kt ∈ regionTotals tieRows, kt.2 ≤ total :=
  ⟨by decide, c6_top_region_max tieRows (by decide)⟩

/-! ### C7 -/

/-- Folding over null years never changes the incumbent. -/
theorem pyMaxStep_fold_none (b : List (Option Int))
    (hb : ∀ x ∈ b, x = none) (acc : Option Int) :
    b.foldl pyMaxStep acc = acc := by
  induction b generalizing acc with
  | nil => rfl
  | cons x xs ih =>
    have hx := hb x (List.mem_cons_self x xs)
    subst hx
    rw [List.foldl_cons, show pyMaxStep acc none = acc from by
      unfold pyMaxStep optYearGT
      split <;> simp_all]
    exact ih (fun z hz => hb z (List.mem_cons_of_mem _ hz)) acc

/-- Folding the Python max step over non-null years computes the
ordinary maximum. -/
theorem pyMaxStep_fold_somes (ys : List Int) (y : Int) :
    (ys.map some).foldl pyMaxStep (some y) = some (ys.foldl max y) := by
  induction ys generalizing y with
  | nil => rfl
  | cons z zs ih =>
    rw [List.map_cons, List.foldl_cons, List.foldl_cons,
      show pyMaxStep (some y) (some z) = some (max y z) from ?_]
    · exact ih (max y z)
    · unfold pyMaxStep optYearGT
      by_cases hzy : y < z
      · simp [hzy, max_eq_right hzy.le]
      · simp [hzy, max_eq_left (not_lt.mp hzy)]

/-- The maximum fold lands on an element of the list it folds over. -/
theorem foldl_max_mem (ys : List Int) (y : Int) :
    ys.foldl max y ∈ y :: ys := by
  induction ys generalizing y with
  | nil => simp
  | cons z zs ih =>
    rw [List.foldl_cons]
    rcases List.mem_cons.mp (ih (max y z)) with hm | hm
    · rw [hm]
      rcases max_choice y z with hc | hc <;> rw [hc] <;> simp
    · simp [hm]

/-- The maximum fold bounds every element of the list it folds over. -/
theorem foldl_max_le (ys : List Int) (y : Int) :
    ∀ z ∈ y :: ys, z ≤ ys.foldl max y := by
  induction ys generalizing y with
  | nil => simp
  | cons w ws ih =>
    intro z hz
    rw [List.foldl_cons]
    rcases List.mem_cons.mp hz with hm | hm
    · subst hm
      exact le_trans (le_max_left z w) (ih (max z w) _ (List.mem_cons_self _ _))
    · rcases List.mem_cons.mp hm with hm2 | hm2
      · subst hm2
        exact le_trans (le_max_right y z) (ih (max y z) _ (List.mem_cons_self _ _))
      · exact ih (max y w) z (List.mem_cons_of_mem _ hm2)

/-- On a record list whose non-null years all come first, the year
column of the tail is all-null. -/
theorem map_year_eq_map_some {a : List CleanRecord}
    (ha : ∀ r ∈ a, r.year ≠ none) :
    a.map (fun r => r.year) = (a.filterMap (fun r => r.year)).map some := by
  induction a with
  | nil => rfl
  | cons r rs ih =>
    obtain ⟨y, hy⟩ := Option.ne_none_iff_exists'.mp
      (ha r (List.mem_cons_self r rs))
    rw [List.map_cons, List.filterMap_cons, hy]
    simp only [List.map_cons]
    rw [ih (fun x hx => ha x (List.mem_cons_of_mem _ hx))]

/-- A record list whose years are all null contributes nothing to the
non-null year list. -/
theorem filterMap_year_nil {b : List CleanRecord}
    (hb : ∀ r ∈ b, r.year = none) :
    b.filterMap (fun r => r.year) = [] := by
  induction b with
  | nil => rfl
  | cons r rs ih =>
    rw [List.filterMap_cons, hb r (List.mem_cons_self r rs)]
    exact ih (fun x hx => hb x (List.mem_cons_of_mem _ hx))

/-- Unfolding lemma for `pyMaxYear` on a non-empty column. -/
theorem pyMaxYear_cons (y : Option Int) (l : List (Option Int)) :
    pyMaxYear (y :: l) = some (l.foldl pyMaxStep y) := rfl

/-- With no non-null years at all, Python's max is `None` on an empty
column and `NaN` otherwise. -/
theorem pyMaxYear_all_none (b : List CleanRecord)
    (hb : ∀ r ∈ b, r.year = none) :
    pyMaxYear (b.map fun r => r.year) =
      match b with
      | [] => none
      | _ :: _ => some none := by
  cases b with
  | nil => rfl
  | cons r0 b0 =>
    simp only [List.map_cons]
    rw [hb r0 (List.mem_cons_self r0 b0), pyMaxYear_cons]
    rw [pyMaxStep_fold_none]
    intro x hx
    obtain ⟨r, hr, hrx⟩ := List.mem_map.mp hx
    rw [← hrx]
    exact hb r (List.mem_cons_of_mem r0 hr)

/-- With the non-null years leading, Python's max is the maximum of the
non-null years. -/
theorem pyMaxYear_split (a b : List CleanRecord) {y0 : Int} {ys : List Int}
    (ha : ∀ r ∈ a, r.year ≠ none) (hb : ∀ r ∈ b, r.year = none)
    (hya : a.filterMap (fun r => r.year) = y0 :: ys) :
    pyMaxYear ((a ++ b).map fun r => r.year) = some (some (ys.foldl max y0)) := by
  rw [List.map_append, map_year_eq_map_some ha, hya, List.map_cons,
    List.cons_append, pyMaxYear_cons, List.foldl_append, pyMaxStep_fold_somes]
  rw [pyMaxStep_fold_none]
  intro x hx
  obtain ⟨r, hr, hrx⟩ := List.mem_map.mp hx
  rw [← hrx]
  exact hb r hr

/-- C7: on collections whose null-year records come last (as the
month-sorted pipeline guarantees) and whose years are positive (as
`Timestamp`-derived years are), the year-over-year KPI is `none` exactly
when no record carries the year `latest - 1` (in particular on the empty
collection); otherwise it returns the latest year's units total, the
prior year's units total, and their signed difference. -/
theorem c7_yoy_characterization (rows : List CleanRecord)
    (hsplit : ∃ a b, rows = a ++ b ∧ (∀ r ∈ a, r.year ≠ none) ∧
      (∀ r ∈ b, r.year = none))
    (hpos : ∀ r ∈ rows, ∀ y : Int, r.year = some y → 0 < y) :
    (yoy rows = none ↔
      ∀ L, specLatest rows = some L → ¬∃ r ∈ rows, r.year = some (L - 1)) ∧
    (∀ latest prior delta, yoy rows = some (latest, prior, delta) →
      ∃ L, specLatest rows = some L ∧
        (∀ r ∈ rows, ∀ y : Int, r.year = some y → y ≤ L) ∧
        (∃ r ∈ rows, r.year = some (L - 1)) ∧
        latest = yearUnits rows L ∧ prior = yearUnits rows (L - 1) ∧
        delta = latest - prior) := by
  obtain ⟨a, b, rfl, ha, hb⟩ := hsplit
  have hfm : (a ++ b).filterMap (fun r => r.year) =
      a.filterMap (fun r => r.year) := by
    rw [List.filterMap_append, filterMap_year_nil hb, List.append_nil]
  cases hya : a.filterMap (fun r => r.year) with
  | nil =>
    have hanil : a = [] := by
      cases a with
      | nil => rfl
      | cons r0 a0 =>
        obtain ⟨y0, hy0⟩ := Option.ne_none_iff_exists'.mp
          (ha r0 (List.mem_cons_self r0 a0))
        rw [List.filterMap_cons, hy0] at hya
        exact absurd hya (by simp)
    subst hanil
    have hspec : specLatest ([] ++ b) = none := by
      unfold specLatest
      rw [hfm, hya]
    have hyoy : yoy ([] ++ b) = none := by
      unfold yoy
      rw [List.nil_append, pyMaxYear_all_none b hb]
      cases b <;> rfl
    refine ⟨?_, ?_⟩
    · rw [hyoy, hspec]
      simp
    · intro latest prior delta heq
      rw [hyoy] at heq
      exact absurd heq (by simp)
  | cons y0 ys =>
    have hspec : specLatest (a ++ b) = some (ys.foldl max y0) := by
      unfold specLatest
      rw [hfm, hya]
    have hMyear : ∃ r ∈ a, r.year = some (ys.foldl max y0) := by
      have hmem : ys.foldl max y0 ∈ a.filterMap (fun r => r.year) := by
        rw [hya]
        exact foldl_max_mem ys y0
      obtain ⟨r, hr, hry⟩ := List.mem_filterMap.mp hmem
      exact ⟨r, hr, hry⟩
    have hMpos : 0 < ys.foldl max y0 := by
      obtain ⟨r, hr, hry⟩ := hMyear
      exact hpos r (List.mem_append_left b hr) _ hry
    have hpy := pyMaxYear_split a b ha hb hya
    have hcont : ((a ++ b).map (fun r => r.year)).contains
        (some (ys.foldl max y0 - 1)) = true ↔
        ∃ r ∈ a ++ b, r.year = some (ys.foldl max y0 - 1) := by
      constructor
      · intro h
        obtain ⟨r, hr, hy⟩ := List.mem_map.mp (List.elem_iff.mp h)
        exact ⟨r, hr, hy⟩
      · intro h
        obtain ⟨r, hr, hy⟩ := h
        exact List.elem_iff.mpr (List.mem_map.mpr ⟨r, hr, hy⟩)
    by_cases hprev : ∃ r ∈ a ++ b, r.year = some (ys.foldl max y0 - 1)
    · have hc : ((ys.foldl max y0 != 0) &&
          (((a ++ b).map (fun r => r.year)).contains
            (some (ys.foldl max y0 - 1)))) = true := by
        rw [Bool.and_eq_true]
        exact ⟨by simpa [bne_iff_ne] using hMpos.ne.symm, hcont.mpr hprev⟩
      have hyoy : yoy (a ++ b) =
          some (yearUnits (a ++ b) (ys.foldl max y0),
            yearUnits (a ++ b) (ys.foldl max y0 - 1),
            yearUnits (a ++ b) (ys.foldl max y0) -
              yearUnits (a ++ b) (ys.foldl max y0 - 1)) := by
        unfold yoy
        rw [hpy]
        simp only [hc, if_true]
      refine ⟨?_, ?_⟩
      · rw [hyoy, hspec]
        constructor
        · intro hcon
          exact absurd hcon (by simp)
        · intro hall
          exact absurd hprev (hall _ rfl)
      · intro latest prior delta heq
        rw [hyoy] at heq
        simp only [Option.some.injEq, Prod.mk.injEq] at heq
        obtain ⟨h1, h2, h3⟩ := heq
        subst h1
        subst h2
        subst h3
        refine ⟨ys.foldl max y0, hspec, ?_, hprev, rfl, rfl, rfl⟩
        intro r hr y hy
        rcases List.mem_append.mp hr with hA | hB
        · have hmem : y ∈ a.filterMap (fun r => r.year) :=
            List.mem_filterMap.mpr ⟨r, hA, hy⟩
          rw [hya] at hmem
          exact foldl_max_le ys y0 y hmem
        · rw [hb r hB] at hy
          exact absurd hy (by simp)
    · have hc : ((ys.foldl max y0 != 0) &&
          (((a ++ b).map (fun r => r.year)).contains
            (some (ys.foldl max y0 - 1)))) = false := by
        cases hcc : ((a ++ b).map (fun r => r.year)).contains
            (some (ys.foldl max y0 - 1)) with
        | false => simp
        | true => exact absurd (hcont.mp hcc) hprev
      have hyoy : yoy (a ++ b) = none := by
        unfold yoy
        rw [hpy]
        simp only [hc, Bool.false_eq_true, if_false]
      refine ⟨?_, ?_⟩
      · rw [hyoy, hspec]
        constructor
        · intro _ L hL
          cases Option.some.inj hL
          exact hprev
        · intro _
          rfl
      · intro latest prior delta heq
        rw [hyoy] at heq
        exact absurd heq (by simp)

/-- C7, witness: the theorem applied to a collection with years 2019 and
2020. -/
theorem c7_yoy_characterization_witness :
    (∃ a b, yoyRowsW = a ++ b ∧ (∀ r ∈ a, r.year ≠ none) ∧
      (∀ r ∈ b, r.year = none)) ∧
    (∀ r ∈ yoyRowsW, ∀ y : Int, r.year = some y → 0 < y) ∧
    ((yoy yoyRowsW = none ↔
      ∀ L, specLatest yoyRowsW = some L →
        ¬∃ r ∈ yoyRowsW, r.year = some (L - 1)) ∧
    (∀ latest prior delta, yoy yoyRowsW = some (latest, prior, delta) →
      ∃ L, specLatest yoyRowsW = some L ∧
        (∀ r ∈ yoyRowsW, ∀ y : Int, r.year = some y → y ≤ L) ∧
        (∃ r ∈ yoyRowsW, r.year = some (L - 1)) ∧
        latest = yearUnits yoyRowsW L ∧ prior = yearUnits yoyRowsW (L - 1) ∧
        delta = latest - prior)) :=
  ⟨⟨yoyRowsW, [], by simp, by decide, by simp⟩,
   by
    intro r hr y hy
    simp only [yoyRowsW, List.mem_cons, List.not_mem_nil, or_false] at hr
    rcases hr with h | h <;> subst h <;>
      simp only [Option.some.injEq] at hy <;> omega,
   c7_yoy_characterization yoyRowsW
     ⟨yoyRowsW, [], by simp, by decide, by simp⟩
     (by
      intro r hr y hy
      simp only [yoyRowsW, List.mem_cons, List.not_mem_nil, or_false] at hr
      rcases hr with h | h <;> subst h <;>
        simp only [Option.some.injEq] at hy <;> omega)⟩

/-! ### C8 and C10 -/

/-- Unfolding lemma for `sumUnits`. -/
theorem sumUnits_cons (r : CleanRecord) (l : List CleanRecord) :
    sumUnits (r :: l) = r.units.getD 0 + sumUnits l := rfl

/-- Splitting a units sum along a Boolean predicate. -/
theorem sumUnits_filter_partition (pr : CleanRecord → Bool)
    (rows : List CleanRecord) :
    sumUnits (rows.filter pr) + sumUnits (rows.filter (fun r => !(pr r))) =
      sumUnits rows := by
  induction rows with
  | nil => simp [sumUnits]
  | cons r rs ih =>
    cases hpr : pr r <;>
      simp [List.filter_cons, hpr, sumUnits_cons] <;>
      linarith [ih]

/-- C8: with only the two known products present, the product shares
are each 0 when the total is 0 (no division-by-zero), and sum to exactly
100 when the total is positive; `tractor_share` is the `Tractor`
instance of the share formula. -/
theorem c8_product_share (rows : List CleanRecord)
    (hprod : ∀ r ∈ rows, r.product = "Tractor" ∨ r.product = "Mower") :
    (sumUnits rows = 0 →
      productShare rows "Tractor" = 0 ∧ productShare rows "Mower" = 0) ∧
    (0 < sumUnits rows →
      productShare rows "Tractor" + productShare rows "Mower" = 100) ∧
    tractorShare rows = productShare rows "Tractor" := by
  refine ⟨?_, ?_, rfl⟩
  · intro h0
    simp [productShare, h0]
  · intro hposv
    have hne : sumUnits rows ≠ 0 := ne_of_gt hposv
    have hM : rows.filter (fun r => r.product == "Mower") =
        rows.filter (fun r => !(r.product == "Tractor")) := by
      apply List.filter_congr
      intro r hr
      rcases hprod r hr with h | h <;> rw [h] <;> decide
    have hsum : productUnits rows "Tractor" + productUnits rows "Mower" =
        sumUnits rows := by
      unfold productUnits
      rw [hM]
      exact sumUnits_filter_partition _ rows
    unfold productShare
    rw [if_pos hne, if_pos hne]
    field_simp
    linarith [hsum]

/-- C8, witness: the theorem applied to a 30/70 tractor/mower split. -/
theorem c8_product_share_witness :
    (∀ r ∈ shareRowsW, r.product = "Tractor" ∨ r.product = "Mower") ∧
    ((sumUnits shareRowsW = 0 →
      productShare shareRowsW "Tractor" = 0 ∧
        productShare shareRowsW "Mower" = 0) ∧
    (0 < sumUnits shareRowsW →
      productShare shareRowsW "Tractor" + productShare shareRowsW "Mower" = 100) ∧
    tractorShare shareRowsW = productShare shareRowsW "Tractor") :=
  ⟨by decide, c8_product_share shareRowsW (by decide)⟩

/-- Truncation toward zero is the floor on nonnegative rationals. -/
theorem pyInt_of_nonneg {q : ℚ} (h : 0 ≤ q) : pyInt q = ⌊q⌋ := by
  unfold pyInt
  rw [Int.tdiv_eq_ediv (Rat.num_nonneg.mpr h) (Int.natCast_nonneg _)]
  exact Rat.floor_def.symm

/-- Truncation toward zero is the ceiling on negative rationals. -/
theorem pyInt_of_neg {q : ℚ} (h : q < 0) : pyInt q = ⌈q⌉ := by
  have h2 : (0 : ℚ) ≤ -q := by linarith
  have hneg : pyInt q = -pyInt (-q) := by
    unfold pyInt
    rw [Rat.neg_num, Rat.neg_den, Int.neg_tdiv, neg_neg]
  rw [hneg, pyInt_of_nonneg h2, Int.floor_neg]
  simp

/-- C10: the total-units KPI is `int()` of the units sum — 0 on the
empty collection, and otherwise the sum truncated toward zero: its floor
when the sum is nonnegative and its ceiling when the sum is negative
(not a rounding). -/
theorem c10_total_units_truncation :
    totalUnits [] = 0 ∧ ∀ rows : List CleanRecord,
      (0 ≤ sumUnits rows → totalUnits rows = ⌊sumUnits rows⌋) ∧
      (sumUnits rows < 0 → totalUnits rows = ⌈sumUnits rows⌉) := by
  refine ⟨by decide, ?_⟩
  intro rows
  exact ⟨fun h => pyInt_of_nonneg h, fun h => pyInt_of_neg h⟩

/-- C10, witness: the theorem applied to a collection whose units sum is
the negative fraction -7/2, truncated to -3 = its ceiling. -/
theorem c10_total_units_truncation_witness :
    sumUnits fracRowsW < 0 ∧ totalUnits fracRowsW = ⌈sumUnits fracRowsW⌉ :=
  ⟨by norm_num [fracRowsW, sumUnits],
   (c10_total_units_truncation.2 fracRowsW).2
     (by norm_num [fracRowsW, sumUnits])⟩

end TractorMowerDashboard
